import Mathlib

/-!
Verification of the `idb-database` cursor stream (`src/cursor.rs`) and the
schema contract (`src/schema.rs`).

The Rust `Cursor<V>` struct wraps an optional `idb::Cursor` handle and an
optional pending boxed future.  Its `Stream::poll_next` implementation either
resumes the pending future or takes the held handle and builds a new future
which reads the current value, requests `advance(1)`, and awaits it, treating
`idb::Error::CursorAdvanceFailed` as end-of-range.  We embed this shallowly:
the underlying `idb::Cursor` is modelled as an inductive tree recording the
outcome of `value()` and of `advance(1)` (including how many polls the
awaited advance request stays pending), the boxed future as a pair of a
remaining-poll count and a final result, and `poll_next` as a pure function
from stream state to a `Poll` outcome and a successor state.
-/

namespace IdbDatabase

/-- The error kinds of the external `idb` crate that the code distinguishes:
`CursorAdvanceFailed` (end of range) versus every other error. -/
inductive IdbError : Type where
  | cursorAdvanceFailed (msg : String)
  | other (msg : String)
deriving DecidableEq, Repr

/-- Whether an error matches the `idb::Error::CursorAdvanceFailed(_)` pattern
used in `poll_next` to detect end-of-range. -/
def IdbError.isAdvanceFailed : IdbError → Bool
  | .cursorAdvanceFailed _ => true
  | .other _ => false

/-- A `wasm_bindgen::JsValue`: either the null sentinel (`js_value.is_null()`)
or an opaque payload, modelled as a natural number, that the codec decodes. -/
inductive JsValue : Type where
  | null
  | mk (data : Nat)
deriving DecidableEq, Repr

/-- The `is_null` test on a `JsValue`. -/
def JsValue.is_null : JsValue → Bool
  | .null => true
  | .mk _ => false

/-- A model of an `idb::Cursor` handle: the behaviour the stream observes.
`valueResult` is what `cursor.value()` returns.  `adv` is what
`cursor.advance(1)` returns: either an immediate error, or a request that
stays `Poll::Pending` for `delay` polls and then completes with
`Result<Option<idb::Cursor>, idb::Error>` (the repositioned handle). -/
inductive IdbCursor : Type where
  | mk (valueResult : Except IdbError JsValue)
       (adv : Except IdbError (Nat × Except IdbError (Option IdbCursor)))

/-- The in-flight boxed future stored in the stream's `pending` field: its
output is `Result<(Option<idb::Cursor>, JsValue), idb::Error>`, delivered
after `remaining` further polls return `Poll::Pending`. -/
structure AdvFuture : Type where
  remaining : Nat
  result : Except IdbError (Option IdbCursor × JsValue)

/-- The async block built in `poll_next` from a taken cursor handle, run to
its suspension structure: `cursor.value()?`, then `cursor.advance(1)`, with
`CursorAdvanceFailed` at either the request or the await converted into
`Ok((None, js_value))` and any other error bubbled up. -/
def mkAdvFuture : IdbCursor → AdvFuture
  | .mk valueResult adv =>
    match valueResult with
    | .error e => ⟨0, .error e⟩
    | .ok v =>
      match adv with
      | .error e =>
        if e.isAdvanceFailed then ⟨0, .ok (none, v)⟩ else ⟨0, .error e⟩
      | .ok (delay, awaited) =>
        match awaited with
        | .error e =>
          if e.isAdvanceFailed then ⟨delay, .ok (none, v)⟩ else ⟨delay, .error e⟩
        | .ok c => ⟨delay, .ok (c, v)⟩

/-- The `Cursor<V>` stream state from `src/cursor.rs`: the optional held
handle and the optional pending advancement future.  (`PhantomData` is
omitted; the value type enters through the decode function.) -/
structure Cursor (V : Type) : Type where
  cursor : Option IdbCursor
  pending : Option AdvFuture

/-- `Cursor::new`: store the optional handle, with no pending operation. -/
def Cursor.new {V : Type} (cursor : Option IdbCursor) : Cursor V :=
  ⟨cursor, none⟩

/-- The result of one `poll_next` call, mirroring `std::task::Poll`. -/
inductive Poll (α : Type) : Type where
  | pending
  | ready (a : α)
deriving DecidableEq, Repr

/-- The tail of `poll_next` once the pending future has completed with
`result`: on `Err` log and end the stream; on `Ok((cursor, value))` store the
repositioned handle back into `self.cursor` first, then return `None` for the
null sentinel, `None` on a decode error, and `Some value` otherwise. -/
def finishStep {V : Type} (decode : JsValue → Except String V)
    (s : Cursor V) (result : Except IdbError (Option IdbCursor × JsValue)) :
    Poll (Option V) × Cursor V :=
  match result with
  | .error _ => (.ready none, s)
  | .ok (c, v) =>
    let s := { s with cursor := c }
    if v.is_null then (.ready none, s)
    else
      match decode v with
      | .error _ => (.ready none, s)
      | .ok w => (.ready (some w), s)

/-- Poll the advancement future once: if it still has pending polls left,
stash it back into `self.pending` and report `Poll::Pending`; once ready,
process its result with `finishStep`. -/
def pollStep {V : Type} (decode : JsValue → Except String V)
    (s : Cursor V) (f : AdvFuture) : Poll (Option V) × Cursor V :=
  match f.remaining with
  | 0 => finishStep decode s f.result
  | k + 1 => (.pending, { s with pending := some ⟨k, f.result⟩ })

/-- `Stream::poll_next` for `Cursor<V>`: take the pending future and resume
it if present; otherwise take the held handle (leaving `None` behind) and
poll a freshly built advancement future; with neither, the stream is done. -/
def Cursor.poll_next {V : Type} (decode : JsValue → Except String V)
    (s : Cursor V) : Poll (Option V) × Cursor V :=
  match s.pending with
  | some f => pollStep decode { s with pending := none } f
  | none =>
    match s.cursor with
    | none => (.ready none, s)
    | some c => pollStep decode (⟨none, none⟩ : Cursor V) (mkAdvFuture c)

/-- Drive one pull to completion: poll, and while the stream reports
`Poll::Pending` poll again, up to `fuel` extra times (a consumer re-polling
when woken).  Returns the final `Poll` outcome and the stream state. -/
def pull {V : Type} (decode : JsValue → Except String V) :
    Cursor V → Nat → Poll (Option V) × Cursor V
  | s, 0 => Cursor.poll_next decode s
  | s, fuel + 1 =>
    match Cursor.poll_next decode s with
    | (.ready r, s') => (.ready r, s')
    | (.pending, s') => pull decode s' fuel

/-- Perform one pull per element of `fuels`, giving each pull the listed
amount of re-poll fuel, and collect the outcomes. -/
def runPulls {V : Type} (decode : JsValue → Except String V)
    (s : Cursor V) : List Nat → List (Poll (Option V)) × Cursor V
  | [] => ([], s)
  | fuel :: fuels =>
    ((pull decode s fuel).1 :: (runPulls decode (pull decode s fuel).2 fuels).1,
     (runPulls decode (pull decode s fuel).2 fuels).2)

/-- A key range with the given entries, as a chain of cursor handles: each
entry holds its raw value and the number of polls its advance await stays
pending; reading succeeds, advancing succeeds onto the next handle, and the
advance await after the last entry fails with `CursorAdvanceFailed`. -/
def chainCursor : List (JsValue × Nat) → Option IdbCursor
  | [] => none
  | (v, d) :: rest =>
    some (.mk (.ok v) (.ok (d,
      match chainCursor rest with
      | none => .error (.cursorAdvanceFailed "cursor finished")
      | some c => .ok (some c))))

/-- A concrete codec for witnesses: payload `0` fails to decode, any other
payload decodes to itself. -/
def decodeNat : JsValue → Except String Nat
  | .null => .error "null"
  | .mk n => if n = 0 then .error "malformed record" else .ok n

/-- Modelled from the spec: the crate-level `Error` type (defined outside
`src/`), into which `serde_wasm_bindgen` encoding failures and `idb` store
failures are converted by the `?` operator in `update_value`. -/
inductive Error : Type where
  | serde (msg : String)
  | idb (e : IdbError)
deriving DecidableEq, Repr

/-- `Cursor::update_value`: with no held handle, return `Ok(())`; otherwise
encode the new value (`serde_wasm_bindgen::to_value`), issue
`cursor.update(&js_value)` and await it, propagating every failure.  The
store's response is a parameter `updateStore` (request and await combined,
since both errors propagate identically); the method borrows `&self`, so the
stream state is returned unchanged. -/
def Cursor.update_value {V : Type} (encode : V → Except String JsValue)
    (updateStore : IdbCursor → JsValue → Except IdbError JsValue)
    (s : Cursor V) (new_value : V) : Except Error Unit × Cursor V :=
  match s.cursor with
  | none => (.ok (), s)
  | some c =>
    match encode new_value with
    | .error e => (.error (.serde e), s)
    | .ok js =>
      match updateStore c js with
      | .error e => (.error (.idb e), s)
      | .ok _ => (.ok (), s)

/-- `Cursor::delete_value`: with no held handle, return `Ok(())`; otherwise
issue `cursor.delete()` and await it, propagating the `idb::Error` failure.
As with update, the store response is the parameter `deleteStore` and the
`&self` borrow leaves the stream state unchanged. -/
def Cursor.delete_value {V : Type} (deleteStore : IdbCursor → Except IdbError Unit)
    (s : Cursor V) : Except IdbError Unit × Cursor V :=
  match s.cursor with
  | none => (.ok (), s)
  | some c =>
    match deleteStore c with
    | .error e => (.error e, s)
    | .ok _ => (.ok (), s)

/-- Modelled from the spec: the crate's `Client` handle to the database
(defined outside `src/`); opaque to the schema contract. -/
inductive Client : Type where
  | mk (id : Nat)

/-- Modelled from the spec: the crate's `Transaction` handle (defined outside
`src/`); opaque to the schema contract. -/
inductive Transaction : Type where
  | mk (id : Nat)

/-- The `Schema` trait from `src/schema.rs`, as a record of its two methods:
`latest() -> u32` (an associated function with no receiver and no effects)
and `apply(&self, &Client, Option<&Transaction>) -> Result<(), Error>`. -/
structure Schema (S : Type) : Type where
  latest : Nat
  apply : S → Client → Option Transaction → Except Error Unit

/-- The value a successful decode of `v` yields, or `none` when decoding
fails or `v` is the null sentinel (used to phrase expected stream output). -/
def decodedOf {V : Type} (decode : JsValue → Except String V) (v : JsValue) :
    Option V :=
  match decode v with
  | .ok w => some w
  | .error _ => none

/-- Once a pending future has completed, `poll_next` always reports
`Poll.ready`: the pull never suspends after the store has answered. -/
theorem finishStep_ready {V : Type} (decode : JsValue → Except String V)
    (s : Cursor V) (r : Except IdbError (Option IdbCursor × JsValue)) :
    ∃ o s', finishStep decode s r = (.ready o, s') := by
  cases r with
  | error e => exact ⟨none, s, rfl⟩
  | ok p =>
    obtain ⟨c, v⟩ := p
    cases hn : v.is_null with
    | true => exact ⟨none, { s with cursor := c }, by simp [finishStep, hn]⟩
    | false =>
      cases hd : decode v with
      | error e => exact ⟨none, { s with cursor := c }, by simp [finishStep, hn, hd]⟩
      | ok w => exact ⟨some w, { s with cursor := c }, by simp [finishStep, hn, hd]⟩

/-- Pulling on a stream whose pending future needs `k` more polls completes
(with the future's result) whenever at least `k` re-polls of fuel remain. -/
theorem pull_pending {V : Type} (decode : JsValue → Except String V)
    (c : Option IdbCursor) (r : Except IdbError (Option IdbCursor × JsValue)) :
    ∀ k fuel : Nat, k ≤ fuel →
      pull decode ⟨c, some ⟨k, r⟩⟩ fuel = finishStep decode ⟨c, none⟩ r := by
  intro k
  induction k with
  | zero =>
    intro fuel _
    cases fuel with
    | zero => rfl
    | succ m =>
      obtain ⟨o, s', hfin⟩ := finishStep_ready decode (⟨c, none⟩ : Cursor V) r
      have hpoll : Cursor.poll_next decode (⟨c, some ⟨0, r⟩⟩ : Cursor V)
          = finishStep decode ⟨c, none⟩ r := rfl
      simp [pull, hpoll, hfin]
  | succ j ih =>
    intro fuel hle
    cases fuel with
    | zero => omega
    | succ m =>
      have hpoll : Cursor.poll_next decode (⟨c, some ⟨j + 1, r⟩⟩ : Cursor V)
          = (.pending, ⟨c, some ⟨j, r⟩⟩) := rfl
      simp only [pull, hpoll]
      exact ih m (by omega)

/-- A pull from a freshly held handle completes with the built future's
result whenever the fuel covers the advance await's remaining polls. -/
theorem pull_fresh {V : Type} (decode : JsValue → Except String V)
    (c : IdbCursor) (fuel : Nat) (h : (mkAdvFuture c).remaining ≤ fuel) :
    pull decode (⟨some c, none⟩ : Cursor V) fuel
      = finishStep decode ⟨none, none⟩ (mkAdvFuture c).result := by
  cases hk : (mkAdvFuture c).remaining with
  | zero =>
    have hpoll : Cursor.poll_next decode (⟨some c, none⟩ : Cursor V)
        = finishStep decode ⟨none, none⟩ (mkAdvFuture c).result := by
      show pollStep decode (⟨none, none⟩ : Cursor V) (mkAdvFuture c) = _
      rw [pollStep, hk]
    cases fuel with
    | zero => exact hpoll
    | succ m =>
      obtain ⟨o, s', hfin⟩ :=
        finishStep_ready decode (⟨none, none⟩ : Cursor V) (mkAdvFuture c).result
      simp [pull, hpoll, hfin]
  | succ j =>
    have hpoll : Cursor.poll_next decode (⟨some c, none⟩ : Cursor V)
        = (.pending, ⟨none, some ⟨j, (mkAdvFuture c).result⟩⟩) := by
      show pollStep decode (⟨none, none⟩ : Cursor V) (mkAdvFuture c) = _
      rw [pollStep, hk]
    cases fuel with
    | zero => omega
    | succ m =>
      simp only [pull, hpoll]
      exact pull_pending decode none (mkAdvFuture c).result j m (by omega)

/-- On the exhausted state (no handle, no pending future) every pull is
immediately `Poll.ready none` and the state does not change. -/
theorem pull_finished {V : Type} (decode : JsValue → Except String V)
    (fuel : Nat) :
    pull decode (⟨none, none⟩ : Cursor V) fuel = (.ready none, ⟨none, none⟩) := by
  cases fuel with
  | zero => rfl
  | succ m => rfl

/-- Every sequence of pulls on the exhausted state yields only completion
signals, and the state stays exhausted. -/
theorem runPulls_finished {V : Type} (decode : JsValue → Except String V)
    (fuels : List Nat) :
    runPulls decode (⟨none, none⟩ : Cursor V) fuels
      = (fuels.map (fun _ => Poll.ready none), ⟨none, none⟩) := by
  induction fuels with
  | nil => rfl
  | cons f fs ih => simp [runPulls, pull_finished, ih]

/-- The head handle of a nonempty chain: reading yields the head value and
the advance await delivers exactly the chain of the remaining entries (the
`CursorAdvanceFailed` at the end is folded into `Ok((None, v))`). -/
theorem mkAdvFuture_chain (v : JsValue) (d : Nat) (rest : List (JsValue × Nat)) :
    ∃ c, chainCursor ((v, d) :: rest) = some c
      ∧ mkAdvFuture c = ⟨d, .ok (chainCursor rest, v)⟩ := by
  cases h : chainCursor rest with
  | none =>
    refine ⟨_, by rw [chainCursor, h], ?_⟩
    rfl
  | some c' =>
    refine ⟨_, by rw [chainCursor, h], ?_⟩
    rfl

/-- Pulling once per entry of a chain, with fuel matching each entry's
advance delay, yields every entry's decoded value in order and ends in the
exhausted state — provided every entry is non-null and decodable. -/
theorem runPulls_chain {V : Type} (decode : JsValue → Except String V)
    (entries : List (JsValue × Nat))
    (h : ∀ p ∈ entries, p.1.is_null = false ∧ (decodedOf decode p.1).isSome = true) :
    runPulls decode ⟨chainCursor entries, none⟩ (entries.map Prod.snd)
      = (entries.map (fun p => Poll.ready (decodedOf decode p.1)), ⟨none, none⟩) := by
  induction entries with
  | nil => rfl
  | cons p rest ih =>
    obtain ⟨v, d⟩ := p
    obtain ⟨hn, hs⟩ := h (v, d) (List.mem_cons_self _ _)
    obtain ⟨c, hc, hf⟩ := mkAdvFuture_chain v d rest
    cases hd : decode v with
    | error e => rw [decodedOf, hd] at hs; simp at hs
    | ok w =>
      have hdec : decodedOf decode v = some w := by rw [decodedOf, hd]
      have hrem : (mkAdvFuture c).remaining = d := by rw [hf]
      have hres : (mkAdvFuture c).result = .ok (chainCursor rest, v) := by rw [hf]
      have hfin : finishStep decode (⟨none, none⟩ : Cursor V)
          (.ok (chainCursor rest, v)) = (.ready (some w), ⟨chainCursor rest, none⟩) := by
        simp [finishStep, hn, hd]
      have hpull := pull_fresh decode c d (by omega)
      rw [hres, hfin] at hpull
      have ihr := ih (fun q hq => h q (List.mem_cons_of_mem _ hq))
      simp only [List.map_cons, hc]
      simp only [runPulls, hpull, ihr, hdec]

/-- C1: for every key range with N entries (including N = 0, i.e. a stream
constructed with no cursor handle), pulling once per entry from a fresh
`Cursor<V>` stream yields exactly the N decoded values in the cursor's key
order and leaves the exhausted state; and from the exhausted state every
further pull yields completion again (idempotent exhaustion). -/
theorem c1_stream_yields_entries_then_completes {V : Type}
    (decode : JsValue → Except String V) (entries : List (JsValue × Nat))
    (h : ∀ p ∈ entries, p.1.is_null = false ∧ (decodedOf decode p.1).isSome = true) :
    runPulls decode (Cursor.new (chainCursor entries)) (entries.map Prod.snd)
      = (entries.map (fun p => Poll.ready (decodedOf decode p.1)), Cursor.new none)
    ∧ ∀ fuels : List Nat,
        runPulls decode (Cursor.new (V := V) none) fuels
          = (fuels.map (fun _ => Poll.ready none), Cursor.new none) :=
  ⟨runPulls_chain decode entries h, fun fuels => runPulls_finished decode fuels⟩

/-- Witness for C1 at the two-entry range [(payload 2, delay 1),
(payload 3, delay 0)] under `decodeNat`. -/
theorem c1_witness :
    (∀ p ∈ [(JsValue.mk 2, 1), (JsValue.mk 3, 0)],
        p.1.is_null = false ∧ (decodedOf decodeNat p.1).isSome = true)
    ∧ runPulls decodeNat
        (Cursor.new (chainCursor [(JsValue.mk 2, 1), (JsValue.mk 3, 0)])) [1, 0]
      = ([Poll.ready (some 2), Poll.ready (some 3)], Cursor.new none) := by
  refine ⟨by decide, ?_⟩
  exact (c1_stream_yields_entries_then_completes decodeNat
    [(JsValue.mk 2, 1), (JsValue.mk 3, 0)] (by decide)).1

/-- C2: when the advance fails with the `CursorAdvanceFailed` kind — whether
already when issuing `advance(1)` or only when awaiting the request — the
value read at the current position is still yielded and the stream's held
handle becomes `None`, so the last entry of a range is not lost. -/
theorem c2_end_of_range_still_yields_value {V : Type}
    (decode : JsValue → Except String V) (v : JsValue) (m : String) (k : Nat)
    (w : V) (hn : v.is_null = false) (hd : decode v = .ok w) :
    Cursor.poll_next decode
        (Cursor.new (some (.mk (.ok v) (.error (.cursorAdvanceFailed m)))))
      = (.ready (some w), Cursor.new none)
    ∧ pull decode
        (Cursor.new (some (.mk (.ok v) (.ok (k, .error (.cursorAdvanceFailed m)))))) k
      = (.ready (some w), Cursor.new none) := by
  constructor
  · simp [Cursor.new, Cursor.poll_next, mkAdvFuture, IdbError.isAdvanceFailed,
      pollStep, finishStep, hn, hd]
  · have h := pull_fresh decode
      (.mk (.ok v) (.ok (k, .error (.cursorAdvanceFailed m)))) k (by rfl)
    rw [Cursor.new, h]
    simp [Cursor.new, mkAdvFuture, IdbError.isAdvanceFailed, finishStep, hn, hd]

/-- Witness for C2 at payload 5 with end-of-range reported at the advance
request. -/
theorem c2_witness :
    (JsValue.mk 5).is_null = false ∧ decodeNat (.mk 5) = .ok 5
    ∧ Cursor.poll_next decodeNat
        (Cursor.new (some (.mk (.ok (.mk 5)) (.error (.cursorAdvanceFailed "eor")))))
      = (.ready (some 5), Cursor.new none) :=
  ⟨rfl, rfl,
    (c2_end_of_range_still_yields_value decodeNat (.mk 5) "eor" 0 5 rfl rfl).1⟩

/-- C3 counterexample: in the range [1, 0, 3] under `decodeNat` (payload 0
fails to decode) the three pulls yield `Some 1`, completion, `Some 3`: the
entry after the undecodable one IS yielded on a later pull, refuting the
claim that the exhaustion after a decode failure is permanent. -/
theorem c3_counterexample_decode_failure_not_permanent :
    (runPulls decodeNat
        (Cursor.new (chainCursor [(.mk 1, 0), (.mk 0, 0), (.mk 3, 0)])) [0, 0, 0]).1
      = [Poll.ready (some 1), Poll.ready none, Poll.ready (some 3)]
    ∧ Poll.ready (some 3) ≠ (Poll.ready none : Poll (Option Nat)) :=
  ⟨rfl, by decide⟩

/-- C3 amended: a pull in which decoding the raw value fails yields
completion for that pull (the error is logged, not propagated), but when the
advance succeeded the repositioned handle is retained, so the exhaustion is
not permanent: in a range [A, B, C] where B's raw value fails to decode, the
pulls yield A, then completion, then C. -/
theorem c3_amended_decode_failure_completes_once {V : Type}
    (decode : JsValue → Except String V) (v : JsValue) (e : String) (k : Nat)
    (c : Option IdbCursor) (hn : v.is_null = false) (hd : decode v = .error e) :
    pull decode (Cursor.new (some (.mk (.ok v) (.ok (k, .ok c))))) k
      = (.ready none, ⟨c, none⟩)
    ∧ (runPulls decodeNat
        (Cursor.new (chainCursor [(.mk 1, 0), (.mk 0, 0), (.mk 3, 0)])) [0, 0, 0]).1
      = [Poll.ready (some 1), Poll.ready none, Poll.ready (some 3)] := by
  constructor
  · have h := pull_fresh decode (.mk (.ok v) (.ok (k, .ok c))) k (by rfl)
    rw [Cursor.new, h]
    simp [mkAdvFuture, finishStep, hn, hd]
  · rfl

/-- Witness for C3's amended claim at payload 0 under `decodeNat`, with a
successful advance onto no further handle. -/
theorem c3_amended_witness :
    (JsValue.mk 0).is_null = false
    ∧ decodeNat (.mk 0) = .error "malformed record"
    ∧ pull decodeNat
        (Cursor.new (some (.mk (.ok (.mk 0)) (.ok (0, .ok none))))) 0
      = (.ready none, ⟨none, none⟩) :=
  ⟨rfl, rfl,
    (c3_amended_decode_failure_completes_once decodeNat (.mk 0)
      "malformed record" 0 none rfl rfl).1⟩

/-- C4: a failure of any kind other than `CursorAdvanceFailed` — when
reading the current value, when issuing the advance request, or when
awaiting it — makes the pull yield completion without yielding the current
value, with the handle gone, and from that exhausted state every subsequent
pull yields completion as well. -/
theorem c4_other_error_exhausts_stream {V : Type}
    (decode : JsValue → Except String V) (e : IdbError)
    (he : e.isAdvanceFailed = false) (v : JsValue) (k : Nat)
    (a : Except IdbError (Nat × Except IdbError (Option IdbCursor))) :
    Cursor.poll_next decode (Cursor.new (some (.mk (.error e) a)))
      = (.ready none, Cursor.new none)
    ∧ Cursor.poll_next decode (Cursor.new (some (.mk (.ok v) (.error e))))
      = (.ready none, Cursor.new none)
    ∧ pull decode (Cursor.new (some (.mk (.ok v) (.ok (k, .error e))))) k
      = (.ready none, Cursor.new none)
    ∧ ∀ fuels : List Nat,
        runPulls decode (Cursor.new (V := V) none) fuels
          = (fuels.map (fun _ => Poll.ready none), Cursor.new none) := by
  refine ⟨rfl, ?_, ?_, fun fuels => runPulls_finished decode fuels⟩
  · simp [Cursor.new, Cursor.poll_next, mkAdvFuture, pollStep, finishStep, he]
  · have hrem : (mkAdvFuture (.mk (.ok v) (.ok (k, .error e)))).remaining = k := by
      simp [mkAdvFuture, he]
    have h := pull_fresh decode (.mk (.ok v) (.ok (k, .error e))) k (by omega)
    rw [Cursor.new, h]
    simp [Cursor.new, mkAdvFuture, finishStep, he]

/-- Witness for C4 at the non-end-of-range error kind `other "io"` reported
when awaiting the advance, with one pending poll of delay. -/
theorem c4_witness :
    (IdbError.other "io").isAdvanceFailed = false
    ∧ pull decodeNat
        (Cursor.new (some (.mk (.ok (.mk 5)) (.ok (1, .error (.other "io")))))) 1
      = (.ready none, Cursor.new none) :=
  ⟨rfl,
    (c4_other_error_exhausts_stream decodeNat (.other "io") rfl (.mk 5) 1
      (.error (.other "io"))).2.2.1⟩

/-- C5: the `pending` slot is an optional field, so at most one advancement
operation is ever in flight; a pull that finds a pending operation resumes
exactly that operation — the cursor field is untouched and no new future is
built, a still-waiting future merely loses one poll — and a fresh
advancement is only begun from the held handle when nothing is pending. -/
theorem c5_pending_resumed_not_restarted {V : Type}
    (decode : JsValue → Except String V) (s : Cursor V) :
    (∀ f, s.pending = some f →
        Cursor.poll_next decode s = pollStep decode { s with pending := none } f)
    ∧ (∀ k r, s.pending = some ⟨k + 1, r⟩ →
        Cursor.poll_next decode s = (.pending, { s with pending := some ⟨k, r⟩ }))
    ∧ (∀ c, s.pending = none → s.cursor = some c →
        Cursor.poll_next decode s
          = pollStep decode (⟨none, none⟩ : Cursor V) (mkAdvFuture c)) := by
  obtain ⟨cur, pen⟩ := s
  refine ⟨?_, ?_, ?_⟩
  · intro f hf
    cases hf
    rfl
  · intro k r hf
    cases hf
    rfl
  · intro c hp hc
    cases hp
    cases hc
    rfl

/-- Witness for C5: a pull on a stream whose pending future needs two more
polls keeps the cursor field and merely steps the same future. -/
theorem c5_witness :
    Cursor.poll_next decodeNat
        (⟨none, some ⟨2, .error (.other "x")⟩⟩ : Cursor Nat)
      = (.pending, ⟨none, some ⟨1, .error (.other "x")⟩⟩) :=
  (c5_pending_resumed_not_restarted decodeNat
    (⟨none, some ⟨2, .error (.other "x")⟩⟩ : Cursor Nat)).2.1 1
    (.error (.other "x")) rfl

/-- C6: when the combined read-and-advance completes successfully, the
repositioned handle is stored back into the cursor field before the raw
value is null-checked or decoded; hence a pull that returns completion
because of the null sentinel or a decode failure can leave `Some` handle in
place, and the next pull starts a fresh advancement from it instead of
yielding completion from an empty state. -/
theorem c6_cursor_stored_before_decode {V : Type}
    (decode : JsValue → Except String V) (v v' : JsValue) (w : V)
    (c : Option IdbCursor) (k : Nat)
    (h : v.is_null = true ∨ ∃ e, decode v = .error e)
    (hn : v'.is_null = false) (hw : decode v' = .ok w) :
    pull decode
        (Cursor.new (some (.mk (.ok v)
          (.ok (k, .ok (some (.mk (.ok v') (.ok (0, .ok c))))))))) k
      = (.ready none, ⟨some (.mk (.ok v') (.ok (0, .ok c))), none⟩)
    ∧ Cursor.poll_next decode
        (⟨some (.mk (.ok v') (.ok (0, .ok c))), none⟩ : Cursor V)
      = (.ready (some w), ⟨c, none⟩) := by
  constructor
  · have hp := pull_fresh decode
      (.mk (.ok v) (.ok (k, .ok (some (.mk (.ok v') (.ok (0, .ok c))))))) k (by rfl)
    rw [Cursor.new, hp]
    rcases h with hnull | ⟨e, herr⟩
    · simp [mkAdvFuture, finishStep, hnull]
    · cases hvn : v.is_null with
      | true => simp [mkAdvFuture, finishStep, hvn]
      | false => simp [mkAdvFuture, finishStep, hvn, herr]
  · simp [Cursor.poll_next, mkAdvFuture, pollStep, finishStep, hn, hw]

/-- Witness for C6: payload 0 fails `decodeNat`, yet the advanced handle (an
entry holding payload 7) survives and the next pull yields 7. -/
theorem c6_witness :
    ((JsValue.mk 0).is_null = true ∨ ∃ e, decodeNat (.mk 0) = .error e)
    ∧ pull decodeNat
        (Cursor.new (some (.mk (.ok (.mk 0))
          (.ok (0, .ok (some (.mk (.ok (.mk 7)) (.ok (0, .ok none))))))))) 0
      = (.ready none, ⟨some (.mk (.ok (.mk 7)) (.ok (0, .ok none))), none⟩) := by
  refine ⟨Or.inr ⟨"malformed record", rfl⟩, ?_⟩
  exact (c6_cursor_stored_before_decode decodeNat (.mk 0) (.mk 7) 7 none 0
    (Or.inr ⟨"malformed record", rfl⟩) rfl rfl).1

/-- C7: with no held handle, `update_value` and `delete_value` return
success and their result does not depend on the store's behaviour; with a
held handle, `update_value` propagates an encoding failure as a serde error
and otherwise reports the store's update response, and `delete_value`
reports the store's delete response. -/
theorem c7_update_delete_split {V : Type} (s : Cursor V) (v : V) :
    (s.cursor = none →
      ∀ (encode : V → Except String JsValue)
        (f g : IdbCursor → JsValue → Except IdbError JsValue)
        (f' g' : IdbCursor → Except IdbError Unit),
        (Cursor.update_value encode f s v).1 = .ok ()
        ∧ Cursor.update_value encode f s v = Cursor.update_value encode g s v
        ∧ (Cursor.delete_value f' s).1 = .ok ()
        ∧ Cursor.delete_value f' s = Cursor.delete_value g' s)
    ∧ (∀ c, s.cursor = some c →
        ∀ (encode : V → Except String JsValue)
          (f : IdbCursor → JsValue → Except IdbError JsValue)
          (f' : IdbCursor → Except IdbError Unit),
        (∀ e, encode v = .error e →
            (Cursor.update_value encode f s v).1 = .error (.serde e))
        ∧ (∀ js, encode v = .ok js →
            (∀ e, f c js = .error e →
                (Cursor.update_value encode f s v).1 = .error (.idb e))
            ∧ (∀ r, f c js = .ok r →
                (Cursor.update_value encode f s v).1 = .ok ()))
        ∧ (∀ e, f' c = .error e → (Cursor.delete_value f' s).1 = .error e)
        ∧ (∀ r, f' c = .ok r → (Cursor.delete_value f' s).1 = .ok ())) := by
  constructor
  · intro hc encode f g f' g'
    refine ⟨?_, ?_, ?_, ?_⟩ <;>
      simp [Cursor.update_value, Cursor.delete_value, hc]
  · intro c hc encode f f'
    refine ⟨?_, ?_, ?_, ?_⟩
    · intro e he
      simp [Cursor.update_value, hc, he]
    · intro js hjs
      constructor
      · intro e he
        simp [Cursor.update_value, hc, hjs, he]
      · intro r hr
        simp [Cursor.update_value, hc, hjs, hr]
    · intro e he
      simp [Cursor.delete_value, hc, he]
    · intro r hr
      simp [Cursor.delete_value, hc, hr]

/-- Witness for C7: the no-handle case succeeds, and with a held handle a
failing store update surfaces as an `idb` error. -/
theorem c7_witness :
    (Cursor.update_value (fun n => .ok (.mk n)) (fun _ js => .ok js)
        (Cursor.new (V := Nat) none) 4).1 = .ok ()
    ∧ (Cursor.update_value (fun n => .ok (.mk n))
        (fun _ _ => .error (.other "update failed"))
        (⟨some (.mk (.ok .null) (.error (.other "x"))), none⟩ : Cursor Nat) 4).1
      = .error (.idb (.other "update failed")) := by
  constructor
  · exact ((c7_update_delete_split (Cursor.new (V := Nat) none) 4).1 rfl
      (fun n => .ok (.mk n)) (fun _ js => .ok js) (fun _ js => .ok js)
      (fun _ => .ok ()) (fun _ => .ok ())).1
  · exact (((c7_update_delete_split
      (⟨some (.mk (.ok .null) (.error (.other "x"))), none⟩ : Cursor Nat) 4).2
      (.mk (.ok .null) (.error (.other "x"))) rfl
      (fun n => .ok (.mk n)) (fun _ _ => .error (.other "update failed"))
      (fun _ => .ok ())).2.1 (.mk 4) rfl).1 (.other "update failed") rfl

/-- C8: `update_value` and `delete_value` borrow the stream state: the state
they return is the input state — cursor and pending fields untouched — so a
pull after such a call behaves exactly as a pull without it. -/
theorem c8_update_delete_preserve_iteration {V : Type}
    (decode : JsValue → Except String V) (encode : V → Except String JsValue)
    (f : IdbCursor → JsValue → Except IdbError JsValue)
    (g : IdbCursor → Except IdbError Unit) (s : Cursor V) (v : V) :
    (Cursor.update_value encode f s v).2 = s
    ∧ (Cursor.delete_value g s).2 = s
    ∧ Cursor.poll_next decode (Cursor.update_value encode f s v).2
        = Cursor.poll_next decode s
    ∧ Cursor.poll_next decode (Cursor.delete_value g s).2
        = Cursor.poll_next decode s := by
  have hu : (Cursor.update_value encode f s v).2 = s := by
    cases hc : s.cursor with
    | none => simp [Cursor.update_value, hc]
    | some c =>
      cases he : encode v with
      | error e => simp [Cursor.update_value, hc, he]
      | ok js =>
        cases hf : f c js with
        | error e => simp [Cursor.update_value, hc, he, hf]
        | ok r => simp [Cursor.update_value, hc, he, hf]
  have hd : (Cursor.delete_value g s).2 = s := by
    cases hc : s.cursor with
    | none => simp [Cursor.delete_value, hc]
    | some c =>
      cases hg : g c with
      | error e => simp [Cursor.delete_value, hc, hg]
      | ok r => simp [Cursor.delete_value, hc, hg]
  exact ⟨hu, hd, by rw [hu], by rw [hd]⟩

/-- C9: the `Schema` contract's `apply` returns a `Result` whose error case
hands any migration failure back to the caller — every outcome is either
success or a returned error, never a swallowed one — and `latest` is an
unsigned-integer version obtained without effects. -/
theorem c9_schema_contract (S : Type) (sch : Schema S) (x : S)
    (db : Client) (tx : Option Transaction) :
    (sch.apply x db tx = .ok () ∨ ∃ e, sch.apply x db tx = .error e)
    ∧ ∃ n : Nat, sch.latest = n := by
  constructor
  · cases h : sch.apply x db tx with
    | ok u =>
      cases u
      exact Or.inl rfl
    | error e => exact Or.inr ⟨e, rfl⟩
  · exact ⟨sch.latest, rfl⟩

/-- C10: with no held handle, `update_value` returns success for every codec
and store behaviour — including a codec that fails on the given value — so
encoding errors are only observable while a handle is held. -/
theorem c10_no_handle_never_encodes {V : Type} (s : Cursor V) (v : V)
    (h : s.cursor = none) :
    ∀ (encode : V → Except String JsValue)
      (f : IdbCursor → JsValue → Except IdbError JsValue),
      (Cursor.update_value encode f s v).1 = .ok ()
      ∧ (Cursor.update_value (fun _ => .error "encoding failed") f s v).1
          = .ok () := by
  intro encode f
  constructor <;> simp [Cursor.update_value, h]

/-- Witness for C10: the always-failing codec still yields success when no
handle is held. -/
theorem c10_witness :
    (Cursor.new (V := Nat) none).cursor = none
    ∧ (Cursor.update_value (fun _ => .error "encoding failed")
        (fun _ js => .ok js) (Cursor.new (V := Nat) none) 0).1 = .ok () :=
  ⟨rfl,
    (c10_no_handle_never_encodes (Cursor.new (V := Nat) none) 0 rfl
      (fun _ => .error "encoding failed") (fun _ js => .ok js)).2⟩

end IdbDatabase
